import Mathlib

/-!
Verification development for `examples/00_understanding_deepsurv.py`.

The script trains a DeepSurv-style survival network.  We shallowly embed
the pieces the specification talks about:

* the custom loss closure `negative_log_likelihood(E)` (lines 115-133),
  embedded with the tensor shapes the script actually produces at run
  time: the Keras model ends in `Dense(units=1)`, so the `y_pred` the
  loss receives is an `(n, 1)` column; `E_train` is the 1-dimensional
  event-indicator vector of length `n` (the commented-out h5 reader in
  the script loads `e` one-dimensional, while `t` is the one that gets
  `reshape(-1, 1)`).  TensorFlow broadcasting is embedded explicitly.
* the argsort-by-descending-time preprocessing (lines 94-97),
* the directory checks (lines 19-26),
* the `model.fit` configuration (lines 190-195),
* the training callbacks (`TerminateOnNaN`, `ModelCheckpoint`) and the
  step order of the linear script, modelled from the specification where
  the behaviour lives in the Keras library rather than in the script.
-/

namespace DeepSurvK

/-! ## The loss closure (lines 115-133)

Each TensorFlow operation used by `loss(y_true, y_pred)` is embedded as
its own definition, at the shapes that occur in the script. -/

/-- Embeds `tf.math.exp`, elementwise on an `(n, 1)` column. -/
noncomputable def tf_exp {n : ℕ} (M : Fin n → Fin 1 → ℝ) : Fin n → Fin 1 → ℝ :=
  fun i k => Real.exp (M i k)

/-- Embeds `tf.math.cumsum` with the default `axis=0`: running sums down the rows
of an `(n, 1)` column. -/
def tf_cumsum {n : ℕ} (M : Fin n → Fin 1 → ℝ) : Fin n → Fin 1 → ℝ :=
  fun i k => ∑ j in Finset.Iic i, M j k

/-- Embeds `tf.math.log`, elementwise on an `(n, 1)` column. -/
noncomputable def tf_log {n : ℕ} (M : Fin n → Fin 1 → ℝ) : Fin n → Fin 1 → ℝ :=
  fun i k => Real.log (M i k)

/-- Embeds `tf.transpose` of an `(n, 1)` column, giving a `(1, n)` row. -/
def tf_transpose {n : ℕ} (M : Fin n → Fin 1 → ℝ) : Fin 1 → Fin n → ℝ :=
  fun k i => M i k

/-- Broadcast subtraction of a `(1, n)` row and an `(n, 1)` column; the
result is the full `(n, n)` matrix, entry `(i, j) = A 0 j - B i 0`. -/
def bcast_sub {n : ℕ} (A : Fin 1 → Fin n → ℝ) (B : Fin n → Fin 1 → ℝ) :
    Fin n → Fin n → ℝ :=
  fun i j => A 0 j - B i 0

/-- Broadcast product of an `(n, n)` matrix with a length-`n` vector; the
vector is aligned with the trailing axis, so column `j` is scaled by `E j`. -/
def bcast_mul_vec {n : ℕ} (C : Fin n → Fin n → ℝ) (E : Fin n → ℝ) :
    Fin n → Fin n → ℝ :=
  fun i j => C i j * E j

/-- Embeds `tf.math.reduce_sum` with no axis argument: the sum of every entry. -/
def tf_reduce_sum {n : ℕ} (C : Fin n → Fin n → ℝ) : ℝ :=
  ∑ i, ∑ j, C i j

/-- Embeds `num_observed_events = tf.constant(1, dtype=tf.float32)` (line 130). -/
def num_observed_events : ℝ := 1

/-- The closure `loss(y_true, y_pred)` returned by
`negative_log_likelihood(E)` (lines 116-132), with every TensorFlow
operation at the shapes the script produces:

* `hazard_ratio = tf.math.exp(y_pred)` — `(n, 1)`;
* `log_risk = tf.math.log(tf.math.cumsum(hazard_ratio))` — `(n, 1)`;
* `uncensored_likelihood = tf.transpose(y_pred) - log_risk` — the
  `(1, n) - (n, 1)` difference broadcasts to an `(n, n)` matrix;
* `censored_likelihood = uncensored_likelihood * E` — columns scaled by
  the event vector;
* `neg_likelihood_ = -tf.math.reduce_sum(censored_likelihood)`, finally
  divided by `num_observed_events = 1`.  `y_true` is never used. -/
noncomputable def loss {n : ℕ} (E : Fin n → ℝ) (y_true y_pred : Fin n → Fin 1 → ℝ) : ℝ :=
  (-(tf_reduce_sum
      (bcast_mul_vec
        (bcast_sub (tf_transpose y_pred) (tf_log (tf_cumsum (tf_exp y_pred))))
        E))) / num_observed_events

/-- The textbook negative log partial likelihood the script's own
markdown (Eq. 4) and the specification describe: per patient `i`, the
contribution `y_pred i - log (cumulative sum of exp (y_pred) up to i)`,
masked by the event indicator `E i`, summed over patients and negated.
Written from the specification's words, to be compared with `loss`. -/
noncomputable def textbook_nll {n : ℕ} (E : Fin n → ℝ) (y_pred : Fin n → ℝ) : ℝ :=
  -(∑ i, E i * (y_pred i - Real.log (∑ j in Finset.Iic i, Real.exp (y_pred j))))

/-! ## The pre-training sort (lines 94-97)

`sort_idx = np.argsort(Y_train)[::-1]` followed by fancy-indexing the
three parallel arrays with the same index list.  `np.argsort` returns a
permutation of the indices putting `Y_train` in ascending order; `[::-1]`
reverses it.  The arrays hold floating-point values; we embed them over
an arbitrary linear order so the datatypes stay executable. -/

/-- Embeds `np.argsort(Y)[::-1]`: some permutation of the indices `0, …, n-1`
arranging `Y` ascending, then reversed — so indexing with it arranges `Y`
descending. -/
def sort_idx {n : ℕ} {α : Type} [LinearOrder α] (Y : Fin n → α) : List (Fin n) :=
  ((List.finRange n).insertionSort (fun i j => Y i ≤ Y j)).reverse

/-- NumPy fancy indexing `A[idx]`: the array whose `k`-th entry is
`A (idx k)`. -/
def apply_idx {n : ℕ} {β : Type} (A : Fin n → β) (idx : List (Fin n)) : List β :=
  idx.map A

/-! ## Directory checks (lines 19-26) -/

/-- Whether the two directories the script cares about exist. -/
structure DirState where
  data_exists : Bool
  models_exists : Bool
deriving DecidableEq, Repr

/-- Outcome of the directory-setup prologue: either the raised
`ValueError`, or the directory state it leaves behind. -/
inductive SetupResult
  | error (msg : String)
  | ok (dirs : DirState)
deriving DecidableEq, Repr

/-- Lines 19-26: raise `ValueError` when `PATH_DATA` does not exist;
otherwise, create `PATH_MODELS` when it does not exist. -/
def setup_dirs (d : DirState) : SetupResult :=
  if d.data_exists = false then
    SetupResult.error "The directory PATH_DATA does not exist."
  else if d.models_exists = false then
    SetupResult.ok ⟨d.data_exists, true⟩
  else
    SetupResult.ok d

/-! ## The `model.fit` call (lines 189-195) -/

/-- The keyword arguments the script passes to `model.fit`. -/
structure FitConfig where
  batch_size : ℕ
  epochs : ℕ
  shuffle : Bool
deriving DecidableEq, Repr

/-- Embeds `epochs = 200` (line 189). -/
def epochs : ℕ := 200

/-- The configuration of the `model.fit` call (lines 190-195):
`batch_size=n_patients_train`, `epochs=epochs`, `shuffle=False`, where
`n_patients_train = X_train.shape[0]` (line 65) is the number of rows of
the training feature matrix, here a parameter since the data files live
outside the repository. -/
def fit_config (n_patients_train : ℕ) : FitConfig :=
  ⟨n_patients_train, epochs, false⟩

/-- Modelled from the spec: the library's fit loop splits the `n` training
samples into `⌈n / batch_size⌉` batches per epoch; the spec states that
with `batch_size = n` "the whole dataset is treated as one batch". -/
def num_batches (n_samples batch_size : ℕ) : ℕ :=
  (n_samples + batch_size - 1) / batch_size

/-! ## Training callbacks (lines 181-182) and the fit loop -/

/-- Modelled from the spec: the library's fit loop under the
`TerminateOnNaN` callback — "train the model until the number of epochs
is reached or until the loss is a NaN; after that, training is stopped".
`isFiniteLoss e` tells whether the loss of epoch `e` is finite;
`run_training isFiniteLoss e rem` returns the indices of the epochs that
actually run, starting at epoch `e` with `rem` epochs remaining: epoch
`e` runs, and the remaining ones run only when its loss was finite. -/
def run_training (isFiniteLoss : ℕ → Bool) : ℕ → ℕ → List ℕ
  | _, 0 => []
  | e, rem + 1 => e :: (if isFiniteLoss e then run_training isFiniteLoss (e + 1) rem else [])

/-- Modelled from the spec: the `ModelCheckpoint(..., monitor='loss',
save_best_only=True, mode='min')` callback decides to overwrite the
checkpoint file exactly when no model is saved yet or the new loss is
strictly below the best saved one.  Over an arbitrary linear order so
the definition stays executable. -/
def ckpt_saves {α : Type} [LinearOrder α] (saved : Option α) (l : α) : Bool :=
  match saved with
  | none => true
  | some b => decide (l < b)

/-- Modelled from the spec: one epoch-end step of `ModelCheckpoint` —
the loss held by the checkpoint file after an epoch with loss `l`. -/
def ckpt_step {α : Type} [LinearOrder α] (saved : Option α) (l : α) : Option α :=
  if ckpt_saves saved l then some l else saved

/-- Modelled from the spec: the loss held by the checkpoint file after
running `ModelCheckpoint` over the whole sequence of epoch losses. -/
def ckpt_run {α : Type} [LinearOrder α] (losses : List α) : Option α :=
  losses.foldl ckpt_step none

/-! ## The order of the script's steps

The script is linear; we record the order in which its top-level steps
occur in the source as a list of labels. -/

/-- The top-level steps of the script. -/
inductive Step
  | dirSetup
  | datasetLoad
  | labelSort
  | lossDef
  | modelDef
  | training
  | reload
  | metrics
deriving DecidableEq, Repr

/-- The steps in source order: directory checks (lines 19-26), `np.load`
of the six arrays (lines 55-61), flatten and sort of the labels (lines
86-97), `def negative_log_likelihood` (lines 115-133), `model =
Sequential()` and the layer stack (lines 146-163), `model.fit` with the
callbacks (lines 181-195), `load_model` (line 203), concordance-index
computation (lines 205-210). -/
def script_steps : List Step :=
  [Step.dirSetup, Step.datasetLoad, Step.labelSort, Step.lossDef,
   Step.modelDef, Step.training, Step.reload, Step.metrics]

/-! ## Prediction post-processing (lines 205, 209) -/

/-- Embeds `Y_pred = np.exp(-model.predict(X))`, per raw model output `h`. -/
noncomputable def post_process (h : ℝ) : ℝ := Real.exp (-h)

/-! ## Theorems -/

/-- C3: inside the loss, the logarithm is only ever applied to a strictly
positive argument: every prefix cumulative sum of hazard ratios
`exp (y_pred k)` is strictly positive (so `tf.math.log` never sees a
non-positive value, and the loss is a finite real for finite inputs);
consequently the embedded `tf_log` genuinely inverts `exp` there. -/
theorem C3_log_argument_positive {n : ℕ} (y_pred : Fin n → Fin 1 → ℝ)
    (i : Fin n) (k : Fin 1) :
    0 < tf_cumsum (tf_exp y_pred) i k ∧
      Real.exp (tf_log (tf_cumsum (tf_exp y_pred)) i k) =
        tf_cumsum (tf_exp y_pred) i k := by
  have hpos : 0 < tf_cumsum (tf_exp y_pred) i k :=
    Finset.sum_pos (fun j _ => Real.exp_pos _) ⟨i, Finset.mem_Iic.mpr le_rfl⟩
  exact ⟨hpos, Real.exp_log hpos⟩

/-- C9: the loss closure never reads its `y_true` argument — its value
depends only on the captured event vector `E` and on `y_pred`. -/
theorem C9_loss_ignores_y_true {n : ℕ} (E : Fin n → ℝ)
    (y_true1 y_true2 y_pred : Fin n → Fin 1 → ℝ) :
    loss E y_true1 y_pred = loss E y_true2 y_pred := rfl

/-- C10: the post-processing `h ↦ exp (-h)` applied before the
concordance index is strictly positive and strictly order-reversing, so
the transformed predictions carry exactly the reversed ranking of the
raw risk scores. -/
theorem C10_post_process_reverses_ranking (h1 h2 : ℝ) :
    (h1 < h2 ↔ post_process h2 < post_process h1) ∧ 0 < post_process h2 := by
  refine ⟨?_, Real.exp_pos _⟩
  rw [post_process, post_process, Real.exp_lt_exp]
  exact (neg_lt_neg_iff).symm

/-- C5: the directory prologue raises exactly when the data directory is
missing, a missing models directory is created rather than raised on,
and the prologue precedes the dataset load in the script's step order. -/
theorem C5_directory_checks (b : Bool) :
    setup_dirs ⟨false, b⟩ =
        SetupResult.error "The directory PATH_DATA does not exist." ∧
    setup_dirs ⟨true, b⟩ = SetupResult.ok ⟨true, true⟩ ∧
    (∀ d : DirState,
        (∃ msg, setup_dirs d = SetupResult.error msg) ↔ d.data_exists = false) ∧
    List.indexOf Step.dirSetup script_steps <
      List.indexOf Step.datasetLoad script_steps := by
  refine ⟨?_, ?_, ?_, by decide⟩
  · rfl
  · cases b <;> rfl
  · rintro ⟨⟨⟩, ⟨⟩⟩ <;> simp [setup_dirs]

/-- C4: the script fits with `batch_size = n_patients_train`,
`shuffle=False` and 200 epochs, so each epoch consists of a single batch
holding the whole training set. -/
theorem C4_single_batch (n : ℕ) (h : 0 < n) :
    (fit_config n).batch_size = n ∧ (fit_config n).shuffle = false ∧
      (fit_config n).epochs = 200 ∧
      num_batches n (fit_config n).batch_size = 1 := by
  refine ⟨rfl, rfl, rfl, ?_⟩
  show (n + n - 1) / n = 1
  rw [Nat.div_eq_of_lt_le] <;> omega

/-- C4, instantiated: with three training patients the fit call forms a
single batch of size three over 200 epochs without shuffling. -/
theorem C4_single_batch_witness :
    0 < 3 ∧
      ((fit_config 3).batch_size = 3 ∧ (fit_config 3).shuffle = false ∧
        (fit_config 3).epochs = 200 ∧
        num_batches 3 (fit_config 3).batch_size = 1) :=
  ⟨by decide, C4_single_batch 3 (by decide)⟩

/-- C8 (counterexample): it is not the case that the model is defined
before the custom loss function — in the script, `def
negative_log_likelihood` (line 115) precedes `model = Sequential()`
(line 146). -/
theorem C8_model_before_loss_false :
    ¬ List.indexOf Step.modelDef script_steps <
        List.indexOf Step.lossDef script_steps := by decide

/-- C8 (amended): the script's steps occur in the order dataset load,
label sort, custom loss definition, model definition, training,
best-checkpoint reload, metric computation — with the loss defined
before the model. -/
theorem C8_step_order :
    List.indexOf Step.datasetLoad script_steps <
        List.indexOf Step.labelSort script_steps ∧
    List.indexOf Step.labelSort script_steps <
        List.indexOf Step.lossDef script_steps ∧
    List.indexOf Step.lossDef script_steps <
        List.indexOf Step.modelDef script_steps ∧
    List.indexOf Step.modelDef script_steps <
        List.indexOf Step.training script_steps ∧
    List.indexOf Step.training script_steps <
        List.indexOf Step.reload script_steps ∧
    List.indexOf Step.reload script_steps <
        List.indexOf Step.metrics script_steps := by decide

/-- The index list produced by `sort_idx` is a permutation of all the
indices `0, …, n-1`. -/
theorem sort_idx_perm {n : ℕ} {α : Type} [LinearOrder α] (Y : Fin n → α) :
    (sort_idx Y).Perm (List.finRange n) :=
  (List.reverse_perm _).trans (List.perm_insertionSort _ _)

/-- C2: the pre-training sort applies one common index permutation to the
three parallel arrays: afterwards the time array is non-increasing, the
entry of each array at any position comes from the same original index,
and the multiset of (feature row, time, event) triples is unchanged. -/
theorem C2_sort_invariant {n : ℕ} {α β γ : Type} [LinearOrder α]
    (X : Fin n → γ) (Y : Fin n → α) (E : Fin n → β) :
    List.Sorted (fun a b => b ≤ a) (apply_idx Y (sort_idx Y)) ∧
    (∀ k : ℕ,
        (apply_idx X (sort_idx Y))[k]? = ((sort_idx Y)[k]?).map X ∧
        (apply_idx Y (sort_idx Y))[k]? = ((sort_idx Y)[k]?).map Y ∧
        (apply_idx E (sort_idx Y))[k]? = ((sort_idx Y)[k]?).map E) ∧
    (apply_idx (fun i => (X i, Y i, E i)) (sort_idx Y)).Perm
      ((List.finRange n).map fun i => (X i, Y i, E i)) := by
  haveI : IsTotal (Fin n) fun i j => Y i ≤ Y j := ⟨fun i j => le_total _ _⟩
  haveI : IsTrans (Fin n) fun i j => Y i ≤ Y j := ⟨fun _ _ _ => le_trans⟩
  refine ⟨?_, ?_, ?_⟩
  · have hs : List.Sorted (fun i j => Y i ≤ Y j)
        ((List.finRange n).insertionSort fun i j => Y i ≤ Y j) :=
      List.sorted_insertionSort _ _
    have hrev : List.Sorted (fun i j : Fin n => Y j ≤ Y i) (sort_idx Y) :=
      (List.pairwise_reverse).mpr hs
    exact List.Pairwise.map Y (fun i j h => h) hrev
  · intro k
    refine ⟨?_, ?_, ?_⟩ <;> simp [apply_idx]
  · exact (sort_idx_perm Y).map _

/-- The epochs that the fit loop under `TerminateOnNaN` executes,
starting at epoch `s` with `rem` epochs remaining, are exactly those in
the window whose predecessors (within the window) all had finite loss. -/
theorem mem_run_training (isFiniteLoss : ℕ → Bool) :
    ∀ (rem s e : ℕ),
      e ∈ run_training isFiniteLoss s rem ↔
        (s ≤ e ∧ e < s + rem ∧ ∀ k, s ≤ k → k < e → isFiniteLoss k = true)
  | 0, s, e => by simp [run_training]; omega
  | rem + 1, s, e => by
    rw [run_training]
    by_cases hs : isFiniteLoss s = true
    · rw [if_pos hs]
      rw [List.mem_cons, mem_run_training isFiniteLoss rem (s + 1) e]
      constructor
      · rintro (rfl | ⟨h1, h2, h3⟩)
        · exact ⟨le_rfl, by omega, fun k hk1 hk2 => absurd (lt_of_le_of_lt hk1 hk2) (lt_irrefl _)⟩
        · refine ⟨by omega, by omega, fun k hk1 hk2 => ?_⟩
          rcases Nat.eq_or_lt_of_le hk1 with rfl | hlt
          · exact hs
          · exact h3 k hlt hk2
      · rintro ⟨h1, h2, h3⟩
        rcases Nat.eq_or_lt_of_le h1 with rfl | hlt
        · exact Or.inl rfl
        · exact Or.inr ⟨hlt, by omega, fun k hk1 hk2 => h3 k (by omega) hk2⟩
    · rw [if_neg hs]
      simp only [List.mem_cons, List.not_mem_nil, or_false]
      constructor
      · rintro rfl
        exact ⟨le_rfl, by omega, fun k hk1 hk2 => absurd (lt_of_le_of_lt hk1 hk2) (lt_irrefl _)⟩
      · rintro ⟨h1, h2, h3⟩
        rcases Nat.eq_or_lt_of_le h1 with rfl | hlt
        · rfl
        · exact absurd (h3 s le_rfl hlt) hs

/-- C6: under the `TerminateOnNaN` callback, epoch `e` (of the 200
configured epochs) runs exactly when every earlier epoch had a finite
loss — training never continues past a non-finite loss, and runs the
full 200 epochs when every loss is finite. -/
theorem C6_terminate_on_nonfinite (isFiniteLoss : ℕ → Bool) (e : ℕ) :
    e ∈ run_training isFiniteLoss 0 epochs ↔
      (e < epochs ∧ ∀ k, k < e → isFiniteLoss k = true) := by
  rw [mem_run_training isFiniteLoss epochs 0 e]
  constructor
  · rintro ⟨_, h2, h3⟩
    exact ⟨by omega, fun k hk => h3 k (Nat.zero_le k) hk⟩
  · rintro ⟨h1, h2⟩
    exact ⟨Nat.zero_le e, by omega, fun k _ hk => h2 k hk⟩

/-- One checkpoint step from a saved loss `b` keeps the smaller of `b`
and the incoming loss. -/
theorem ckpt_step_some {α : Type} [LinearOrder α] (b l : α) :
    ckpt_step (some b) l = some (min b l) := by
  by_cases h : l < b
  · simp [ckpt_step, ckpt_saves, h, min_eq_right (le_of_lt h)]
  · simp [ckpt_step, ckpt_saves, h, min_eq_left (le_of_not_lt h)]

/-- Folding the checkpoint from a saved loss computes the running
minimum. -/
theorem ckpt_foldl_some {α : Type} [LinearOrder α] :
    ∀ (L : List α) (b : α),
      List.foldl ckpt_step (some b) L = some (List.foldl min b L)
  | [], _ => rfl
  | a :: L, b => by
    rw [List.foldl_cons, List.foldl_cons, ckpt_step_some]
    exact ckpt_foldl_some L (min b a)

/-- The running minimum is one of the values folded over. -/
theorem foldl_min_mem {α : Type} [LinearOrder α] :
    ∀ (L : List α) (b : α), List.foldl min b L ∈ b :: L
  | [], b => List.mem_singleton.mpr rfl
  | a :: L, b => by
    rw [List.foldl_cons]
    rcases List.mem_cons.mp (foldl_min_mem L (min b a)) with h | h
    · rw [h]
      rcases min_choice b a with h2 | h2 <;> simp [h2]
    · simp [List.mem_cons_of_mem, h]

/-- The running minimum is a lower bound of the values folded over. -/
theorem foldl_min_le {α : Type} [LinearOrder α] :
    ∀ (L : List α) (b x : α), x ∈ b :: L → List.foldl min b L ≤ x
  | [], b, x, hx => by
    rw [List.mem_singleton] at hx
    exact le_of_eq hx.symm
  | a :: L, b, x, hx => by
    rw [List.foldl_cons]
    have hle : List.foldl min (min b a) L ≤ min b a :=
      foldl_min_le L (min b a) (min b a) (List.mem_cons_self _ _)
    rcases List.mem_cons.mp hx with h | h
    · exact le_trans (le_trans hle (min_le_left _ _)) (le_of_eq h.symm)
    rcases List.mem_cons.mp h with h2 | h2
    · exact le_trans (le_trans hle (min_le_right _ _)) (le_of_eq h2.symm)
    · exact foldl_min_le L (min b a) x (List.mem_cons_of_mem _ h2)

/-- C7: over any non-empty run of epoch losses, the checkpoint ends up
holding the minimum loss observed; a further epoch would overwrite it
exactly when its loss is strictly below every loss seen so far; and in
the script the checkpoint reload precedes the concordance-index
computations. -/
theorem C7_checkpoint_best {α : Type} [LinearOrder α] (L : List α)
    (hL : L ≠ []) :
    (∃ m, ckpt_run L = some m ∧ m ∈ L ∧ (∀ x ∈ L, m ≤ x) ∧
        ∀ l, ckpt_saves (ckpt_run L) l = true ↔ ∀ x ∈ L, l < x) ∧
    List.indexOf Step.reload script_steps <
      List.indexOf Step.metrics script_steps := by
  refine ⟨?_, by decide⟩
  cases L with
  | nil => exact absurd rfl hL
  | cons a L =>
    have h1 : ckpt_run (a :: L) = some (List.foldl min a L) := by
      rw [ckpt_run, List.foldl_cons]
      show List.foldl ckpt_step (some a) L = _
      exact ckpt_foldl_some L a
    refine ⟨List.foldl min a L, h1, foldl_min_mem L a,
      fun x hx => foldl_min_le L a x hx, fun l => ?_⟩
    rw [h1]
    show decide (l < List.foldl min a L) = true ↔ _
    rw [decide_eq_true_eq]
    constructor
    · exact fun hlt x hx => lt_of_lt_of_le hlt (foldl_min_le L a x hx)
    · exact fun hall => hall _ (foldl_min_mem L a)

/-- C7, instantiated: on the loss run `[3, 1, 2]` the checkpoint holds
the minimum `1`, and a later epoch overwrites exactly when its loss is
below every loss seen. -/
theorem C7_checkpoint_best_witness :
    ([3, 1, 2] : List ℕ) ≠ [] ∧
      ((∃ m, ckpt_run ([3, 1, 2] : List ℕ) = some m ∧
          m ∈ ([3, 1, 2] : List ℕ) ∧
          (∀ x ∈ ([3, 1, 2] : List ℕ), m ≤ x) ∧
          ∀ l, ckpt_saves (ckpt_run ([3, 1, 2] : List ℕ)) l = true ↔
            ∀ x ∈ ([3, 1, 2] : List ℕ), l < x) ∧
        List.indexOf Step.reload script_steps <
          List.indexOf Step.metrics script_steps) :=
  ⟨by decide, C7_checkpoint_best ([3, 1, 2] : List ℕ) (by decide)⟩

/-- C1 (code evaluated at the failing input): with two patients, both
predicted scores `0` (so `y_pred` is the `(2, 1)` zero column the model
produces) and event vector `E = [1, 0]`, the loss the closure computes
is `log 2 ≈ 0.693`, while the textbook negative log partial likelihood
the script's markdown (Eq. 4) and the spec state is `0` — the
`tf.transpose(y_pred) - log_risk` broadcast makes the code sum an
`n × n` matrix instead of the per-patient contributions. -/
theorem C1_loss_at_failing_input :
    loss (![(1 : ℝ), 0]) (fun _ _ => 0) (fun _ _ => 0) = Real.log 2 ∧
    textbook_nll (![(1 : ℝ), 0]) (![(0 : ℝ), 0]) = 0 ∧
    Real.log 2 ≠ 0 := by
  have h0 : (Finset.Iic (0 : Fin 2)) = {0} := by decide
  have h1 : (Finset.Iic (1 : Fin 2)) = {0, 1} := by decide
  have hpair : ((0 : Fin 2) : Fin 2) ≠ 1 := by decide
  refine ⟨?_, ?_, ne_of_gt (Real.log_pos (by norm_num))⟩
  · rw [loss]
    simp [tf_reduce_sum, bcast_mul_vec, bcast_sub, tf_transpose, tf_log,
      tf_cumsum, tf_exp, num_observed_events, Fin.sum_univ_two, h0, h1,
      Finset.sum_pair hpair, Real.exp_zero, Real.log_one]
    norm_num
  · simp [textbook_nll, Fin.sum_univ_two, h0, h1, Finset.sum_pair hpair,
      Real.exp_zero, Real.log_one]

end DeepSurvK
